import Mathlib

/-!
Verification of the credential-encryption subsystem of the
pw-automation-framework codebase, shallowly embedded in Lean 4.

The embedding translates the TypeScript sources:
  src/cryptography/types/crypto.config.ts          (CRYPTO_CONSTANTS, CRYPTO_CONFIG)
  src/cryptography/engine/internal/cryptoValidation.ts
  src/cryptography/engine/internal/cryptoDecryption.ts
  src/cryptography/engine/internal/cryptoEncryption.ts
  src/cryptography/engine/internal/cryptoHmac.ts
  src/cryptography/engine/internal/cryptoArgon2.ts
  src/cryptography/service/cryptoService.ts
  src/config/environment/manager/secretFileManager.ts

External platform primitives (the argon2 library, WebCrypto AES-GCM and
HMAC-SHA-256, Node's Buffer base64 codec) are modelled as parameters or as
faithful Lean implementations (RFC 4648 base64).  Strings are manipulated
through their character lists; JavaScript string operations (split,
substring, startsWith, replace-of-a-leading-prefix, trim) are re-implemented
on `List Char` with the same semantics on the inputs that occur here.
Errors thrown via `ErrorHandler.logAndThrow` are modelled as `Except`
errors, categorised per the design taxonomy (validation / authentication /
configuration) according to the throwing call site.
-/

set_option maxRecDepth 100000

namespace PWCrypto

/-- Error taxonomy of the design (§7 of the spec): each `ErrorHandler.logAndThrow`
call site is categorised as validation, authentication or configuration.
The first field is the `source` argument, the second the message. -/
inductive CryptoError where
  | validation (source msg : String)
  | authentication (source msg : String)
  | configuration (source msg : String)
deriving DecidableEq, Repr

/-- `CRYPTO_CONSTANTS.FORMAT.PREFIX` = "ENC2:" (crypto.config.ts). -/
def prefixTag : String := "ENC2:"

/-- `CRYPTO_CONSTANTS.FORMAT.VERSION` = "v1" (crypto.config.ts). -/
def versionTag : String := "v1"

/-- `CRYPTO_CONSTANTS.FORMAT.SEPARATOR` = ":" — a single character, modelled
as a `Char` for splitting (crypto.config.ts). -/
def separatorChar : Char := ':'

/-- `CRYPTO_CONSTANTS.FORMAT.EXPECTED_PARTS` = 5 (crypto.config.ts). -/
def EXPECTED_PARTS : Nat := 5

/-- `CRYPTO_CONFIG.BYTE_LENGTHS.SALT` = 32 (crypto.config.ts). -/
def SALT_LENGTH : Nat := 32

/-- `CRYPTO_CONFIG.BYTE_LENGTHS.WEB_CRYPTO_IV` = 12 (crypto.config.ts). -/
def WEB_CRYPTO_IV_LENGTH : Nat := 12

/-- `CRYPTO_CONFIG.BYTE_LENGTHS.SECRET_KEY` = 32 (crypto.config.ts). -/
def SECRET_KEY_LENGTH : Nat := 32

/-- `CRYPTO_CONFIG.BYTE_LENGTHS.HMAC_KEY_LENGTH` = 32 (crypto.config.ts). -/
def HMAC_KEY_LENGTH : Nat := 32

/-- `CRYPTO_CONFIG.ARGON2_PARAMETERS` (crypto.config.ts). -/
def MEMORY_COST : Nat := 262144

def TIME_COST : Nat := 4

def PARALLELISM : Nat := 3

/-- JavaScript `String.prototype.split` with a single-character separator,
on the character list of the string.  `"".split(sep)` is `[""]`, and
separators at the ends produce empty fields, exactly as in JS. -/
def jsSplit (sep : Char) : List Char → List (List Char)
  | [] => [[]]
  | c :: cs =>
    let rest := jsSplit sep cs
    if c = sep then [] :: rest
    else
      match rest with
      | t :: ts => (c :: t) :: ts
      | [] => [[c]]

/-- The RFC 4648 base64 alphabet, in index order (the encoding used by
Node's `Buffer.toString("base64")`). -/
def b64AlphabetList : List Char :=
  [ 'A', 'B', 'C', 'D', 'E', 'F', 'G', 'H', 'I', 'J', 'K', 'L', 'M',
    'N', 'O', 'P', 'Q', 'R', 'S', 'T', 'U', 'V', 'W', 'X', 'Y', 'Z',
    'a', 'b', 'c', 'd', 'e', 'f', 'g', 'h', 'i', 'j', 'k', 'l', 'm',
    'n', 'o', 'p', 'q', 'r', 's', 't', 'u', 'v', 'w', 'x', 'y', 'z',
    '0', '1', '2', '3', '4', '5', '6', '7', '8', '9', '+', '/' ]

/-- Character at a 6-bit index of the base64 alphabet. -/
def b64CharOf (n : Nat) : Char := b64AlphabetList.getD n 'A'

/-- Membership in the regex character class `[A-Za-z0-9+/]` used by
`CryptoValidation.isValidBase64` and by the claim C6 regex. -/
def isB64AlphaChar (c : Char) : Bool :=
  ('A' ≤ c && c ≤ 'Z') || ('a' ≤ c && c ≤ 'z') || ('0' ≤ c && c ≤ '9') ||
    c = '+' || c = '/'

/-- Membership in the claim C6 regex character class `[A-Za-z0-9+/=]`. -/
def isB64FieldChar (c : Char) : Bool := isB64AlphaChar c || c = '='

/-- The 6-bit value of a base64 alphabet character (`none` for characters
outside the alphabet, including `=`), as used by Node's lenient decoder. -/
def b64ValueOf (c : Char) : Option Nat :=
  if 'A' ≤ c && c ≤ 'Z' then some (c.toNat - 'A'.toNat)
  else if 'a' ≤ c && c ≤ 'z' then some (c.toNat - 'a'.toNat + 26)
  else if '0' ≤ c && c ≤ '9' then some (c.toNat - '0'.toNat + 52)
  else if c = '+' then some 62
  else if c = '/' then some 63
  else none

/-- Reassembles bytes from a list of 6-bit values: full groups of four
values give three bytes, a trailing pair gives one byte, a trailing triple
two bytes, and a single leftover value contributes nothing — the behaviour
of Node's `Buffer.from(s, "base64")` once non-alphabet characters are
dropped. -/
def b64DecodeVals : List Nat → List Nat
  | v1 :: v2 :: v3 :: v4 :: rest =>
      (v1 * 4 + v2 / 16) :: ((v2 % 16) * 16 + v3 / 4) :: ((v3 % 4) * 64 + v4)
        :: b64DecodeVals rest
  | [v1, v2] => [v1 * 4 + v2 / 16]
  | [v1, v2, v3] => [v1 * 4 + v2 / 16, (v2 % 16) * 16 + v3 / 4]
  | [_] => []
  | [] => []

/-- Model of Node's `Buffer.from(s, "base64")`: non-alphabet characters
(including padding `=`) are ignored, and the remaining 6-bit values are
packed into bytes.  The decoder is total — Node never throws here. -/
def nodeBase64Decode (s : String) : List Nat :=
  b64DecodeVals (s.data.filterMap b64ValueOf)

/-- RFC 4648 base64 encoding with `=` padding on a byte list — the model of
Node's `Buffer.toString("base64")`. -/
def base64EncodeList : List Nat → List Char
  | [] => []
  | [b1] => [b64CharOf (b1 / 4), b64CharOf ((b1 % 4) * 16), '=', '=']
  | [b1, b2] =>
      [b64CharOf (b1 / 4), b64CharOf ((b1 % 4) * 16 + b2 / 16),
       b64CharOf ((b2 % 16) * 4), '=']
  | b1 :: b2 :: b3 :: rest =>
      b64CharOf (b1 / 4) :: b64CharOf ((b1 % 4) * 16 + b2 / 16) ::
      b64CharOf ((b2 % 16) * 4 + b3 / 64) :: b64CharOf (b3 % 64) ::
      base64EncodeList rest

/-- String-valued base64 encoding. -/
def base64Encode (bs : List Nat) : String := String.mk (base64EncodeList bs)

namespace CryptoValidation

/-- The test of the regex `^[A-Za-z0-9+/]*={0,2}$` from
`CryptoValidation.isValidBase64`: the characters before the first `=` must
all lie in the class, and from the first `=` on there may be at most two
characters, all `=`. -/
def b64RegexTest (s : List Char) : Bool :=
  let body := s.takeWhile (fun c => !(c = '='))
  let pad := s.dropWhile (fun c => !(c = '='))
  body.all isB64AlphaChar && decide (pad.length ≤ 2) && pad.all (fun c => c = '=')

/-- `CryptoValidation.isValidBase64` (cryptoValidation.ts): returns false on
the empty string (`!value`), then requires the regex to match and the length
to be a multiple of 4; the final `Buffer.from(value, "base64")` call never
throws in Node, so the `try` branch always returns true. -/
def isValidBase64 (value : String) : Bool :=
  if value.data = [] then false
  else if !(b64RegexTest value.data) || value.data.length % 4 ≠ 0 then false
  else true

/-- `CryptoValidation.isEncrypted` (cryptoValidation.ts): prefix check, then
`value.replace(PREFIX, "")` (which removes the leading "ENC2:" because the
prefix check passed) and a split on ":"; the part count is compared against
`EXPECTED_PARTS + 1 = 6`, the first part against the version, and the rest
must be valid base64. -/
def isEncrypted (value : String) : Bool :=
  if value.data = [] then false
  else if !(prefixTag.data.isPrefixOf value.data) then false
  else
    let parts := jsSplit separatorChar (value.data.drop prefixTag.data.length)
    if parts.length ≠ EXPECTED_PARTS + 1 then false
    else
      let version := parts.getD 0 []
      let cryptoParts := parts.drop 1
      if version ≠ versionTag.data then false
      else cryptoParts.all (fun p => isValidBase64 (String.mk p))

/-- `CryptoValidation.validateBase64String` (cryptoValidation.ts). -/
def validateBase64String (value fieldName : String) : Except CryptoError Unit :=
  if value.data = [] then
    .error (.validation "CryptoEngine.validateBase64String"
      (fieldName ++ " must be a non-empty string"))
  else if !(isValidBase64 value) then
    .error (.validation "validateBase64String"
      (fieldName ++ " is not a valid base64 string"))
  else .ok ()

/-- `CryptoValidation.validateSecretKey` (cryptoValidation.ts): non-empty
and at least 16 characters. -/
def validateSecretKey (secretKey : String) : Except CryptoError Unit :=
  if secretKey.data = [] then
    .error (.validation "CryptoEngine.validateSecretKey"
      "Secret key must be a non-empty string")
  else if secretKey.data.length < 16 then
    .error (.validation "validateSecretKey"
      "Secret key must be at least 16 characters long")
  else .ok ()

/-- `CryptoValidation.validateInputs` (cryptoValidation.ts): the value and
the secret key must be non-empty strings. -/
def validateInputs (value secretKey operation : String) : Except CryptoError Unit :=
  if value.data = [] then
    .error (.validation "CryptoEngine.validateInputs"
      (operation ++ ": Value must be a non-empty string"))
  else if secretKey.data = [] then
    .error (.validation "validateSecretKey"
      (operation ++ ": Secret key must be a non-empty string"))
  else .ok ()

end CryptoValidation

/-- The options object passed to `argon2.hash` by
`CryptoArgon2.deriveKeysWithArgon2`: argon2id type with the configured hash
length, decoded salt, memory cost, time cost and parallelism. -/
structure Argon2Options where
  hashLength : Nat
  saltBytes : List Nat
  memoryCost : Nat
  timeCost : Nat
  parallelism : Nat
deriving DecidableEq, Repr

/-- The external cryptographic primitives the engine calls: the argon2
library's `argon2.hash` (raw output bytes), WebCrypto AES-256-GCM
encryption/decryption (ciphertext includes the GCM tag; decryption returns
`none` on tag-verification failure) and HMAC-SHA-256.  UTF-8 encoding and
decoding of the plaintext are folded into the cipher functions, whose
plaintext side is a `String`.  The engine is parameterised over these
functions; theorems quantify over them or instantiate them. -/
structure CryptoPrimitives where
  argon2Hash : String → Argon2Options → List Nat
  aesGcmEncrypt : (key : List Nat) → (iv : List Nat) → (plaintext : String) → List Nat
  aesGcmDecrypt : (key : List Nat) → (iv : List Nat) → (cipher : List Nat) → Option String
  hmacSha256 : (key : List Nat) → (data : List Nat) → List Nat

/-- `DerivedKeySet`: raw key material of the two derived keys.  The source
imports them as opaque WebCrypto key handles; the model keeps the bytes. -/
structure DerivedKeySet where
  encryptionKey : List Nat
  hmacKey : List Nat
deriving DecidableEq, Repr

namespace CryptoArgon2

/-- The concrete options `deriveKeysWithArgon2` builds for `argon2.hash`:
`hashLength = SECRET_KEY + HMAC_KEY_LENGTH = 64`, the base64-decoded salt,
and the fixed memory/time/parallelism parameters. -/
def argon2OptionsFor (salt : String) : Argon2Options :=
  { hashLength := SECRET_KEY_LENGTH + HMAC_KEY_LENGTH
    saltBytes := nodeBase64Decode salt
    memoryCost := MEMORY_COST
    timeCost := TIME_COST
    parallelism := PARALLELISM }

/-- `CryptoArgon2.deriveKeysWithArgon2` (cryptoArgon2.ts): validates the
salt as base64, runs argon2 with the fixed options, and splits the 64-byte
output at `SECRET_KEY_LENGTH = 32` into the encryption key (`subarray(0, 32)`)
and the HMAC key (`subarray(32)`). -/
def deriveKeysWithArgon2 (P : CryptoPrimitives) (secretKey salt : String) :
    Except CryptoError DerivedKeySet :=
  match CryptoValidation.validateBase64String salt "salt" with
  | .error e => .error e
  | .ok _ =>
    let derivedKeyBuffer := P.argon2Hash secretKey (argon2OptionsFor salt)
    .ok { encryptionKey := derivedKeyBuffer.take SECRET_KEY_LENGTH
          hmacKey := derivedKeyBuffer.drop SECRET_KEY_LENGTH }

end CryptoArgon2

namespace CryptoHmac

/-- `CryptoHmac.prepareHMACData` (cryptoHmac.ts): base64-decode salt, iv and
ciphertext and concatenate the raw bytes. -/
def prepareHMACData (salt iv cipherText : String) : List Nat :=
  nodeBase64Decode salt ++ nodeBase64Decode iv ++ nodeBase64Decode cipherText

/-- `CryptoHmac.verifyHMAC` (cryptoHmac.ts): base64-decode both MACs,
compare lengths first, then `crypto.timingSafeEqual` — which, on equal-length
buffers, decides byte-wise equality. -/
def verifyHMAC (computedHmac receivedHmac : String) : Bool :=
  let computed := nodeBase64Decode computedHmac
  let received := nodeBase64Decode receivedHmac
  if computed.length ≠ received.length then false
  else computed = received

/-- The single generic message of the authentication failure raised by
`CryptoHmac.verifyHMACIntegrity` — it does not distinguish a wrong key from
tampered data. -/
def hmacMismatchMsg : String :=
  "Authentication failed: HMAC mismatch - invalid key or tampered data"

/-- `CryptoHmac.verifyHMACIntegrity` (cryptoHmac.ts): recompute the HMAC
over `salt‖iv‖ciphertext` with the derived HMAC key and constant-time
compare it with the received MAC; on mismatch throw the one generic
authentication error. -/
def verifyHMACIntegrity (P : CryptoPrimitives)
    (salt iv cipherText receivedHmac : String) (hmacKey : List Nat) :
    Except CryptoError Unit :=
  let dataToHmac := prepareHMACData salt iv cipherText
  let computedHmac := base64Encode (P.hmacSha256 hmacKey dataToHmac)
  if verifyHMAC computedHmac receivedHmac then .ok ()
  else .error (.authentication "CryptoEngine.verifyHMACIntegrity" hmacMismatchMsg)

end CryptoHmac

/-- The parsed components returned by `CryptoDecryption.parseEncryptedData`. -/
structure ParsedData where
  version : String
  salt : String
  iv : String
  cipherText : String
  receivedHmac : String
deriving DecidableEq, Repr

namespace CryptoDecryption

/-- `CryptoDecryption.validateEncryptedComponents` (cryptoDecryption.ts):
prefix check, part count against `EXPECTED_PARTS + 1 = 6`, version check,
missing-component check, and base64 checks, in source order. -/
def validateEncryptedComponents (encryptedData : String) (parts : List (List Char))
    (version salt iv cipherText receivedHmac : String) : Except CryptoError Unit :=
  let expectedParts := EXPECTED_PARTS + 1
  if !(prefixTag.data.isPrefixOf encryptedData.data) then
    .error (.validation "CryptoEngine.validateEncryptedComponents"
      "Invalid encrypted format: Missing prefix")
  else if parts.length ≠ expectedParts then
    .error (.validation "CryptoEngine.validateEncryptedComponents"
      "Invalid format. Wrong number of parts")
  else if version ≠ versionTag then
    .error (.validation "CryptoEngine.validateEncryptedComponents"
      "Unsupported encryption version")
  else if salt.data = [] || iv.data = [] || cipherText.data = [] ||
      receivedHmac.data = [] then
    .error (.validation "CryptoEngine.validateEncryptedComponents"
      "Missing components")
  else if !(CryptoValidation.isValidBase64 salt) ||
      !(CryptoValidation.isValidBase64 iv) ||
      !(CryptoValidation.isValidBase64 cipherText) ||
      !(CryptoValidation.isValidBase64 receivedHmac) then
    .error (.validation "CryptoEngine.validateEncryptedComponents"
      "Invalid format for components")
  else .ok ()

/-- `CryptoDecryption.parseEncryptedData` (cryptoDecryption.ts): strip the
first `PREFIX.length = 5` characters, split the remainder on ":", take the
first five tokens as version/salt/iv/cipherText/hmac (a missing token
destructures to `undefined`, which like the empty string fails the `!part`
check), then run `validateEncryptedComponents`. -/
def parseEncryptedData (encryptedData : String) : Except CryptoError ParsedData :=
  let encryptedPart := encryptedData.data.drop prefixTag.data.length
  let parts := jsSplit separatorChar encryptedPart
  let version := String.mk (parts.getD 0 [])
  let salt := String.mk (parts.getD 1 [])
  let iv := String.mk (parts.getD 2 [])
  let cipherText := String.mk (parts.getD 3 [])
  let receivedHmac := String.mk (parts.getD 4 [])
  if version.data = [] || salt.data = [] || iv.data = [] ||
      cipherText.data = [] || receivedHmac.data = [] then
    .error (.validation "CryptoEngine.parseEncryptedData"
      "Invalid encrypted data format")
  else
    match validateEncryptedComponents encryptedData parts version salt iv
        cipherText receivedHmac with
    | .error e => .error e
    | .ok _ =>
      .ok { version := version, salt := salt, iv := iv,
            cipherText := cipherText, receivedHmac := receivedHmac }

/-- `CryptoDecryption.performDecryption` (cryptoDecryption.ts): base64-decode
iv and ciphertext and run the AES-GCM decryption; a tag-verification failure
of the cipher is an authentication failure (§7 of the spec). -/
def performDecryption (P : CryptoPrimitives) (iv : String)
    (encryptionKey : List Nat) (cipherText : String) : Except CryptoError String :=
  match P.aesGcmDecrypt encryptionKey (nodeBase64Decode iv) (nodeBase64Decode cipherText) with
  | some plaintext => .ok plaintext
  | none => .error (.authentication "decryptBuffer" "Failed to decrypt with AES-GCM")

end CryptoDecryption

namespace CryptoEncryption

/-- The components of an encrypted payload, as returned by
`CryptoEncryption.createEncryptedPayload`. -/
structure EncryptedComponents where
  salt : String
  iv : String
  cipherText : String
  hmac : String
deriving DecidableEq, Repr

/-- `CryptoEncryption.formatEncryptedPayload` (cryptoEncryption.ts):
`PREFIX VERSION : salt : iv : cipherText : hmac`. -/
def formatEncryptedPayload (salt iv cipherText hmac : String) : String :=
  prefixTag ++ versionTag ++ ":" ++ salt ++ ":" ++ iv ++ ":" ++ cipherText
    ++ ":" ++ hmac

/-- `CryptoEncryption.createEncryptedPayload` (cryptoEncryption.ts): AES-GCM
encrypt the value, base64-encode ciphertext and iv, compute the HMAC over
the prepared `salt‖iv‖ciphertext` data, and format the envelope. -/
def createEncryptedPayload (P : CryptoPrimitives) (value salt : String)
    (iv : List Nat) (encryptionKey hmacKey : List Nat) :
    String × EncryptedComponents :=
  let cipherText := base64Encode (P.aesGcmEncrypt encryptionKey iv value)
  let ivBase64 := base64Encode iv
  let dataToHmac := CryptoHmac.prepareHMACData salt ivBase64 cipherText
  let hmacBase64 := base64Encode (P.hmacSha256 hmacKey dataToHmac)
  (formatEncryptedPayload salt ivBase64 cipherText hmacBase64,
   { salt := salt, iv := ivBase64, cipherText := cipherText, hmac := hmacBase64 })

end CryptoEncryption

namespace SecretFileManager

/-- JavaScript `String.prototype.trim` on the ASCII whitespace characters
that occur in env files (space, tab, newline, carriage return, vertical tab,
form feed). -/
def isJsSpace (c : Char) : Bool :=
  c = ' ' || c = '\t' || c = '\n' || c = '\r' || c = '\x0b' || c = '\x0c'

/-- Model of `value.trim()`. -/
def jsTrim (s : String) : String :=
  String.mk ((s.data.dropWhile isJsSpace).reverse.dropWhile isJsSpace |>.reverse)

/-- `SecretFileManager.extractKeyValue` (secretFileManager.ts): match the
multiline regex `^KEY=(.*)$` against the file content and return the first
captured value — i.e. the remainder of the first line that starts with
`KEY=`.  (The source escapes regex metacharacters in the key, so the match
is a literal prefix match per line.) -/
def extractKeyValue (fileContent keyName : String) : Option String :=
  ((jsSplit '\n' fileContent.data).find?
      (fun l => (keyName.data ++ ['=']).isPrefixOf l)).map
    (fun l => String.mk (l.drop (keyName.data.length + 1)))

/-- `SecretFileManager.environmentKeyExists` (secretFileManager.ts). -/
def environmentKeyExists (fileContent keyName : String) : Bool :=
  (extractKeyValue fileContent keyName).isSome

/-- `SecretFileManager.formatEnvironmentKeyValue`: `KEY=VALUE`. -/
def formatEnvironmentKeyValue (keyName value : String) : String :=
  keyName ++ "=" ++ value

/-- `SecretFileManager.updateExistingEnvironmentKey`: replace the first line
matching `^KEY=.*$` with `KEY=value` (JS `String.replace` with a non-global
multiline regex replaces the first match). -/
def updateExistingEnvironmentKey (fileContent keyName value : String) : String :=
  let rec go : List (List Char) → List (List Char)
    | [] => []
    | l :: ls =>
      if (keyName.data ++ ['=']).isPrefixOf l then
        (formatEnvironmentKeyValue keyName value).data :: ls
      else l :: go ls
  String.mk (List.intercalate ['\n'] (go (jsSplit '\n' fileContent.data)))

/-- `SecretFileManager.ensureFileEndsWithNewline`. -/
def ensureFileEndsWithNewline (content : String) : String :=
  if content.data ≠ [] && content.data.getLast? ≠ some '\n' then content ++ "\n"
  else content

/-- `SecretFileManager.addEnvironmentKey`: append `KEY=value` after a
newline. -/
def addEnvironmentKey (fileContent keyName value : String) : String :=
  ensureFileEndsWithNewline fileContent ++ formatEnvironmentKeyValue keyName value

/-- `SecretFileManager.updateEnvironmentKey`: update in place if the key
exists, else append. -/
def updateEnvironmentKey (fileContent keyName value : String) : String :=
  if environmentKeyExists fileContent keyName then
    updateExistingEnvironmentKey fileContent keyName value
  else addEnvironmentKey fileContent keyName value

/-- `SecretFileManager.shouldSkipExistingKey` (secretFileManager.ts): with
`skipIfExists` set, skip whenever `extractKeyValue` finds the key — any
existing value, the empty string included. -/
def shouldSkipExistingKey (fileContent keyName : String) (skipIfExists : Bool) : Bool :=
  if !skipIfExists then false
  else (extractKeyValue fileContent keyName).isSome

/-- The body of `SecretFileManager.storeKeyInFile` run under the file lock,
as a pure function of the file content it reads: returns the `wasWritten`
flag and the resulting content. -/
def storeKeyInFileContent (fileContent keyName value : String)
    (skipIfExists : Bool) : Bool × String :=
  if shouldSkipExistingKey fileContent keyName skipIfExists then
    (false, fileContent)
  else (true, updateEnvironmentKey fileContent keyName value)

/-- `SecretFileManager.verifySecretKeyExists` on given file content: the key
must be present with a non-whitespace value. -/
def verifySecretKeyExists (fileContent secretKeyName : String) : Bool :=
  match extractKeyValue fileContent secretKeyName with
  | some v => (jsTrim v).data ≠ []
  | none => false

/-- `SecretFileManager.ensureSecretKeyExists` on given file content: throws
a configuration error when the secret key is absent or blank. -/
def ensureSecretKeyExists (fileContent secretKeyName : String) :
    Except CryptoError Unit :=
  if verifySecretKeyExists fileContent secretKeyName then .ok ()
  else
    .error (.configuration "ensureSecretKeyExists"
      "Secret key variable not found in environment file")

end SecretFileManager

namespace CryptoEnvironment

/-- `CryptoEnvironment.getSecretKeyFromEnvironment` (cryptoEnvironment.ts),
with the secret file content passed explicitly: look the variable up and
throw a configuration error when it is absent or empty (`!secretKeyValue`). -/
def getSecretKeyFromEnvironment (secretFileContent secretKeyVariable : String) :
    Except CryptoError String :=
  match SecretFileManager.extractKeyValue secretFileContent secretKeyVariable with
  | some v =>
    if v.data = [] then
      .error (.configuration "CryptoEngine.getSecretKeyFromEnvironment"
        "Secret key variable not found in environment file")
    else .ok v
  | none =>
    .error (.configuration "CryptoEngine.getSecretKeyFromEnvironment"
      "Secret key variable not found in environment file")

end CryptoEnvironment

/-- Which steps of a `CryptoService.decrypt` call were reached:
whether the argon2 hashing ran, the outcome of the HMAC comparison if it was
reached, and whether the AES-GCM decryption (`performDecryption`) ran. -/
structure DecryptTrace where
  kdfInvoked : Bool
  macResult : Option Bool
  aeadInvoked : Bool
deriving DecidableEq, Repr

namespace CryptoService

/-- `CryptoService.encrypt` (cryptoService.ts) with the resolved secret key
and the CSPRNG outputs (salt bytes from `generateBase64Salt`, iv bytes from
`generateWebCryptoIV`) passed as inputs: validate, derive keys, build the
payload, return the formatted string. -/
def encryptWithKey (P : CryptoPrimitives) (value secretKey : String)
    (saltBytes ivBytes : List Nat) : Except CryptoError String :=
  match CryptoValidation.validateSecretKey secretKey with
  | .error e => .error e
  | .ok _ =>
  match CryptoValidation.validateInputs value secretKey "encrypt" with
  | .error e => .error e
  | .ok _ =>
    let salt := base64Encode saltBytes
    match CryptoArgon2.deriveKeysWithArgon2 P secretKey salt with
    | .error e => .error e
    | .ok keys =>
      .ok (CryptoEncryption.createEncryptedPayload P value salt ivBytes
        keys.encryptionKey keys.hmacKey).1

/-- `CryptoService.encrypt` with the secret resolved from the secret file
content, as `validateEncryptionPrerequisites` does. -/
def encrypt (P : CryptoPrimitives) (secretFileContent : String)
    (value secretKeyVariable : String) (saltBytes ivBytes : List Nat) :
    Except CryptoError String :=
  match CryptoEnvironment.getSecretKeyFromEnvironment secretFileContent
      secretKeyVariable with
  | .error e => .error e
  | .ok secretKey => encryptWithKey P value secretKey saltBytes ivBytes

/-- `CryptoService.decrypt` (cryptoService.ts) with the resolved secret key,
instrumented with a `DecryptTrace`: validate the secret and the inputs,
parse the envelope, derive the keys with argon2, verify the HMAC, and only
then perform the AES-GCM decryption. -/
def decryptTraced (P : CryptoPrimitives) (encryptedData secretKey : String) :
    Except CryptoError String × DecryptTrace :=
  match CryptoValidation.validateSecretKey secretKey with
  | .error e => (.error e, ⟨false, none, false⟩)
  | .ok _ =>
  match CryptoValidation.validateInputs encryptedData secretKey "decrypt" with
  | .error e => (.error e, ⟨false, none, false⟩)
  | .ok _ =>
  match CryptoDecryption.parseEncryptedData encryptedData with
  | .error e => (.error e, ⟨false, none, false⟩)
  | .ok pd =>
  match CryptoArgon2.deriveKeysWithArgon2 P secretKey pd.salt with
  | .error e => (.error e, ⟨false, none, false⟩)
  | .ok keys =>
  match CryptoHmac.verifyHMACIntegrity P pd.salt pd.iv pd.cipherText
      pd.receivedHmac keys.hmacKey with
  | .error e => (.error e, ⟨true, some false, false⟩)
  | .ok _ =>
  match CryptoDecryption.performDecryption P pd.iv keys.encryptionKey
      pd.cipherText with
  | .error e => (.error e, ⟨true, some true, true⟩)
  | .ok plaintext => (.ok plaintext, ⟨true, some true, true⟩)

/-- `CryptoService.decrypt` with the secret resolved from the secret file
content. -/
def decrypt (P : CryptoPrimitives) (secretFileContent : String)
    (encryptedData secretKeyVariable : String) :
    Except CryptoError String × DecryptTrace :=
  match CryptoEnvironment.getSecretKeyFromEnvironment secretFileContent
      secretKeyVariable with
  | .error e => (.error e, ⟨false, none, false⟩)
  | .ok secretKey => decryptTraced P encryptedData secretKey

end CryptoService

namespace CryptoCoordinator

/-- `CryptoCoordinator.generateAndStoreSecretKey` (cryptoCoordinator.ts)
with the generated key (`SecureKeyGenerator.generateBase64SecretKey`) and
the secret-file content passed explicitly: store it with
`{skipIfExists: true}` (the returned `wasWritten` flag is discarded), then
`ensureSecretKeyExists`, and return the generated key together with the
resulting file content. -/
def generateAndStoreSecretKey (generatedSecretKey fileContent currentEnvKey : String) :
    Except CryptoError (String × String) :=
  let stored := SecretFileManager.storeKeyInFileContent fileContent currentEnvKey
    generatedSecretKey true
  match SecretFileManager.ensureSecretKeyExists stored.2 currentEnvKey with
  | .error e => .error e
  | .ok _ => .ok (generatedSecretKey, stored.2)

end CryptoCoordinator

/-! ### Spec-side definitions

The next two definitions follow the specification's words, not the source;
they exist to be compared with the source-derived definitions above. -/

/-- Modelled from the spec: `isWellFormedEnvelope(s)` — "starts with the
fixed prefix; splitting the remainder by the separator yields exactly
`version + 4` tokens (= 5); version equals supported version; all 4
trailing tokens are valid base64 and non-empty". -/
def specWellFormedEnvelope (s : String) : Bool :=
  prefixTag.data.isPrefixOf s.data &&
  (let parts := jsSplit separatorChar (s.data.drop prefixTag.data.length)
   (parts.length == EXPECTED_PARTS) && (parts.getD 0 [] == versionTag.data) &&
     (parts.drop 1).all
       (fun p => !p.isEmpty && CryptoValidation.isValidBase64 (String.mk p)))

/-- Modelled from the spec: the claim C6 regex
`^ENC2:v1:[A-Za-z0-9+/=]+:[A-Za-z0-9+/=]+:[A-Za-z0-9+/=]+:[A-Za-z0-9+/=]+$`.
Since `:` is not in the bracket class, a string matches exactly when it
starts with `ENC2:v1:` and the remainder splits on `:` into exactly four
non-empty tokens over the class. -/
def matchesEnvelopeRegex (s : String) : Bool :=
  "ENC2:v1:".data.isPrefixOf s.data &&
  (let fields := jsSplit separatorChar (s.data.drop 8)
   (fields.length == 4) && fields.all (fun f => !f.isEmpty && f.all isB64FieldChar))

/-- `true` exactly on validation errors (§7 taxonomy). -/
def isValidationError {α : Type} : Except CryptoError α → Bool
  | .error (.validation _ _) => true
  | _ => false

/-- `true` exactly on authentication errors (§7 taxonomy). -/
def isAuthenticationError {α : Type} : Except CryptoError α → Bool
  | .error (.authentication _ _) => true
  | _ => false

/-- A concrete instantiation of the external primitives, used to evaluate
the pipeline on explicit inputs.  The functions are arbitrary but share the
structural properties of the real ones that matter here: AES-GCM output is
the plaintext length plus a 16-byte tag, HMAC-SHA-256 output is 32 bytes,
argon2 output is `hashLength = 64` bytes, and all are deterministic. -/
def testPrimitives : CryptoPrimitives :=
  { argon2Hash := fun secret opts =>
      (List.range 64).map (fun i =>
        (i + secret.data.length + opts.saltBytes.length) % 256)
    aesGcmEncrypt := fun key iv plaintext =>
      plaintext.data.map (fun c => (c.toNat + key.length + iv.length) % 256)
        ++ List.replicate 16 7
    aesGcmDecrypt := fun key iv cipher =>
      if cipher.length < 16 then none
      else some (String.mk ((cipher.take (cipher.length - 16)).map
        (fun b => Char.ofNat ((b + 256 - (key.length + iv.length) % 256) % 256))))
    hmacSha256 := fun key data =>
      (List.range 32).map (fun i => (i + key.length + 3 * data.length) % 256) }

/-! ### The in-process file-lock machine

`SecretFileManager.executeWithFileLock` / `waitForFileLock` /
`createFileLock` (secretFileManager.ts) drive concurrent `storeKeyInFile`
calls on one path.  The machine below embeds two such calls as tasks of an
interleaving semantics that mirrors the await boundaries of the source:

  * `ready → checked`: `await this.waitForFileLock(filePath)` when the
    `fileLocks` map holds no entry for the path — the check and the résumé
    of the `await` are separated from the lock installation, which happens
    only in a later microtask;
  * `ready → waitingFor j`: the check found task `j`'s pending promise; the
    task resumes only once that promise resolves (task `j` finished), and
    `waitForFileLock` does not re-check the map afterwards;
  * `checked/waitingFor → running`: `createFileLock` stores this
    operation's promise in the map (overwriting any entry) and starts the
    operation, which immediately suspends inside `readEnvFileContent`;
  * `running → readDone c`: the file read resolves with the current
    content;
  * `readDone → finished`: `updateEnvironmentKey` output is written, the
    operation promise resolves, and the `finally` clause deletes the map
    entry for the path (whichever task installed it).

A schedule is a list of task ids; each entry advances that task by one
enabled step (a task awaiting an unresolved promise, or already finished,
is left unchanged). -/

inductive TaskPhase where
  | ready
  | checked
  | waitingFor (other : Bool)
  | running
  | readDone (content : List Char)
  | finished
deriving DecidableEq, Repr

/-- The key/value pair a `storeKeyInFile` task writes. -/
structure TaskSpec where
  keyName : String
  value : String

/-- Shared state: the file content, the `fileLocks` map entry for the path
(the id of the task whose promise is installed), and both task phases. -/
structure StoreState where
  file : String
  lockOwner : Option Bool
  phase0 : TaskPhase
  phase1 : TaskPhase
deriving DecidableEq, Repr

def phaseOf (s : StoreState) (i : Bool) : TaskPhase :=
  if i then s.phase1 else s.phase0

def setPhase (s : StoreState) (i : Bool) (p : TaskPhase) : StoreState :=
  if i then { s with phase1 := p } else { s with phase0 := p }

/-- One enabled step of task `i` (see the machine description above). -/
def storeStep (spec0 spec1 : TaskSpec) (s : StoreState) (i : Bool) : StoreState :=
  let sp := if i then spec1 else spec0
  match phaseOf s i with
  | .ready =>
    match s.lockOwner with
    | none => setPhase s i .checked
    | some j => if j = i then setPhase s i .checked else setPhase s i (.waitingFor j)
  | .checked => { setPhase s i .running with lockOwner := some i }
  | .waitingFor j =>
    if phaseOf s j = .finished then { setPhase s i .running with lockOwner := some i }
    else s
  | .running => setPhase s i (.readDone s.file.data)
  | .readDone content =>
    { setPhase s i .finished with
        file := SecretFileManager.updateEnvironmentKey (String.mk content)
          sp.keyName sp.value
        lockOwner := none }
  | .finished => s

/-- Run a schedule from a state. -/
def storeRun (spec0 spec1 : TaskSpec) (s : StoreState) (sched : List Bool) : StoreState :=
  sched.foldl (storeStep spec0 spec1) s

/-- The initial state: empty file, no lock entry, both `storeKeyInFile`
calls just issued (same tick). -/
def storeInit : StoreState :=
  { file := "", lockOwner := none, phase0 := .ready, phase1 := .ready }

/-- A mutating operation is in flight between `createFileLock` starting it
and its write completing. -/
def inFlight (s : StoreState) (i : Bool) : Bool :=
  match phaseOf s i with
  | .running => true
  | .readDone _ => true
  | _ => false

/-- The canonical event-loop schedule of two `storeKeyInFile` calls issued
in the same synchronous tick (e.g. via `Promise.all`): both lock checks
resolve first, then each microtask continuation installs its lock and
starts its operation, then the reads resolve, then the writes. -/
def sameTickSchedule : List Bool :=
  [false, true, false, true, false, true, false, true]

/-! ### Concrete fixtures -/

/-- A secret file holding the spec's concrete-scenario secret
`"0123456789abcdef0123456789abcdef"` under `TEST_SECRET_KEY`. -/
def secretFile0 : String := "TEST_SECRET_KEY=0123456789abcdef0123456789abcdef"

/-- The envelope `CryptoService.encrypt` produces under `testPrimitives`
for plaintext `"hunter2"`, salt bytes `List.range 32` and iv bytes
`List.range 12` (checked inside the theorems that use it). -/
def envelope0 : String :=
  "ENC2:v1:AAECAwQFBgcICQoLDA0ODxAREhMUFRYXGBkaGxwdHh8=:AAECAwQFBgcICQoL:lKGaoJGeXgcHBwcHBwcHBwcHBwcHBwc=:6err7O3u7/Dx8vP09fb3+Pn6+/z9/v8AAQIDBAUGBwg="

/-- `envelope0` with the base64 character at index 75 — the sixth character
of the ciphertext field, originally `'J'` — replaced by `'Z'`. -/
def envelope0Tampered : String := String.mk (envelope0.data.set 75 'Z')

/-! ### Claim theorems -/

/-- C1: the round-trip property `decrypt(encrypt(s, k), k) = s` fails — it
fails on every input, because `encrypt` emits five `:`-separated tokens
after the `ENC2:` prefix while `validateEncryptedComponents` requires
`EXPECTED_PARTS + 1 = 6` of them.  At the spec's own concrete scenario
(secret `0123456789abcdef0123456789abcdef` resolved from the secret store,
plaintext `"hunter2"`), `encrypt` succeeds and produces `envelope0`, and
`decrypt` of `envelope0` under the same secret throws the part-count
validation error before ever reaching the key-derivation function. -/
theorem decrypt_rejects_every_encrypt_output_concrete :
    CryptoService.encrypt testPrimitives secretFile0 "hunter2" "TEST_SECRET_KEY"
        (List.range 32) (List.range 12) = .ok envelope0 ∧
    (CryptoService.decrypt testPrimitives secretFile0 envelope0 "TEST_SECRET_KEY").1 =
      .error (.validation "CryptoEngine.validateEncryptedComponents"
        "Invalid format. Wrong number of parts") ∧
    (CryptoService.decrypt testPrimitives secretFile0 envelope0
      "TEST_SECRET_KEY").2.kdfInvoked = false := by
  refine ⟨?_, ?_, ?_⟩ <;> rfl

/-- C2: the decryption-side envelope validation does NOT accept exactly the
strings the claim describes.  A five-token remainder (`version` + 4 base64
fields — exactly the claim's well-formed shape, and the shape `encrypt`
produces) is rejected by both `isEncrypted` and `parseEncryptedData`, while
a six-token remainder (version + 5 base64 fields) is accepted by
`isEncrypted`; both validators compare the token count against
`EXPECTED_PARTS + 1 = 6` although the format (and the source's own comment
"Now expect version + 4 parts = 5") calls for 5. -/
theorem envelope_validation_part_count_off_by_one :
    specWellFormedEnvelope "ENC2:v1:AAAA:AAAA:AAAA:AAAA" = true ∧
    CryptoValidation.isEncrypted "ENC2:v1:AAAA:AAAA:AAAA:AAAA" = false ∧
    isValidationError
      (CryptoDecryption.parseEncryptedData "ENC2:v1:AAAA:AAAA:AAAA:AAAA") = true ∧
    specWellFormedEnvelope "ENC2:v1:AAAA:AAAA:AAAA:AAAA:AAAA" = false ∧
    CryptoValidation.isEncrypted "ENC2:v1:AAAA:AAAA:AAAA:AAAA:AAAA" = true := by
  refine ⟨?_, ?_, ?_, ?_, ?_⟩ <;> rfl

/-- C3: concurrent `storeValue` calls on one path are NOT mutually
excluded and updates are lost.  Under the event-loop schedule of two
`storeKeyInFile` calls issued in the same synchronous tick
(`sameTickSchedule`), both tasks pass `waitForFileLock` before either has
installed its lock, both operations are in flight simultaneously after the
fourth step, and once both calls resolve the final file contains only the
second task's pair — the first key is lost. -/
theorem concurrent_store_same_tick_loses_update :
    SecretFileManager.extractKeyValue
      (storeRun ⟨"K1", "v1"⟩ ⟨"K2", "v2"⟩ storeInit sameTickSchedule).file "K1"
        = none ∧
    SecretFileManager.extractKeyValue
      (storeRun ⟨"K1", "v1"⟩ ⟨"K2", "v2"⟩ storeInit sameTickSchedule).file "K2"
        = some "v2" ∧
    phaseOf (storeRun ⟨"K1", "v1"⟩ ⟨"K2", "v2"⟩ storeInit sameTickSchedule) false
      = .finished ∧
    phaseOf (storeRun ⟨"K1", "v1"⟩ ⟨"K2", "v2"⟩ storeInit sameTickSchedule) true
      = .finished ∧
    inFlight (storeRun ⟨"K1", "v1"⟩ ⟨"K2", "v2"⟩ storeInit
      (sameTickSchedule.take 4)) false = true ∧
    inFlight (storeRun ⟨"K1", "v1"⟩ ⟨"K2", "v2"⟩ storeInit
      (sameTickSchedule.take 4)) true = true := by
  refine ⟨?_, ?_, ?_, ?_, ?_, ?_⟩ <;> rfl

/-- C4: an input that fails the claim's envelope validation can still reach
the Argon2 key-derivation function.  For inputs the code's own validator
rejects (wrong prefix, wrong version, missing field, non-base64 field —
first four conjunct pairs) `decrypt` does raise a validation error with the
KDF never invoked; but the last input has six tokens after the prefix — the
wrong part count for the documented format, so the claim's validation
(`specWellFormedEnvelope`) rejects it — yet `parseEncryptedData` accepts it
(silently dropping the sixth token) and `decrypt` invokes the KDF on it. -/
theorem kdf_invoked_on_malformed_six_token_input :
    (isValidationError (CryptoService.decryptTraced testPrimitives
        "XXXX:v1:AAAA:AAAA:AAAA:AAAA" "0123456789abcdef0123456789abcdef").1 = true ∧
      (CryptoService.decryptTraced testPrimitives "XXXX:v1:AAAA:AAAA:AAAA:AAAA"
        "0123456789abcdef0123456789abcdef").2.kdfInvoked = false) ∧
    (isValidationError (CryptoService.decryptTraced testPrimitives
        "ENC2:v2:AAAA:AAAA:AAAA:AAAA:AAAA" "0123456789abcdef0123456789abcdef").1 = true ∧
      (CryptoService.decryptTraced testPrimitives "ENC2:v2:AAAA:AAAA:AAAA:AAAA:AAAA"
        "0123456789abcdef0123456789abcdef").2.kdfInvoked = false) ∧
    (isValidationError (CryptoService.decryptTraced testPrimitives
        "ENC2:v1:AAAA:AAAA:AAAA" "0123456789abcdef0123456789abcdef").1 = true ∧
      (CryptoService.decryptTraced testPrimitives "ENC2:v1:AAAA:AAAA:AAAA"
        "0123456789abcdef0123456789abcdef").2.kdfInvoked = false) ∧
    (isValidationError (CryptoService.decryptTraced testPrimitives
        "ENC2:v1:@@@@:AAAA:AAAA:AAAA:AAAA" "0123456789abcdef0123456789abcdef").1 = true ∧
      (CryptoService.decryptTraced testPrimitives "ENC2:v1:@@@@:AAAA:AAAA:AAAA:AAAA"
        "0123456789abcdef0123456789abcdef").2.kdfInvoked = false) ∧
    (specWellFormedEnvelope "ENC2:v1:AAAA:AAAA:AAAA:AAAA:AAAA" = false ∧
      (CryptoService.decryptTraced testPrimitives "ENC2:v1:AAAA:AAAA:AAAA:AAAA:AAAA"
        "0123456789abcdef0123456789abcdef").2.kdfInvoked = true) := by
  refine ⟨⟨?_, ?_⟩, ⟨?_, ?_⟩, ⟨?_, ?_⟩, ⟨?_, ?_⟩, ⟨?_, ?_⟩⟩ <;> rfl

/-- C7: tampering a single base64 character of the ciphertext field of a
valid envelope does NOT raise `AuthenticationError` — `decrypt` rejects the
tampered envelope (like every five-token envelope) with the part-count
`ValidationError`, before any MAC comparison.  `envelope0Tampered` differs
from `envelope0` exactly in the ciphertext token (token 4 of the
`:`-separated string, character index 75, `'J'` replaced by `'Z'`). -/
theorem tampered_ciphertext_rejected_as_validation_not_auth :
    CryptoService.encryptWithKey testPrimitives "hunter2"
        "0123456789abcdef0123456789abcdef" (List.range 32) (List.range 12)
      = .ok envelope0 ∧
    envelope0.data.getD 75 ' ' = 'J' ∧
    (jsSplit separatorChar envelope0Tampered.data).length = 6 ∧
    (jsSplit separatorChar envelope0Tampered.data).getD 4 [] ≠
      (jsSplit separatorChar envelope0.data).getD 4 [] ∧
    (jsSplit separatorChar envelope0Tampered.data).eraseIdx 4 =
      (jsSplit separatorChar envelope0.data).eraseIdx 4 ∧
    isAuthenticationError
      (CryptoService.decryptTraced testPrimitives envelope0Tampered
        "0123456789abcdef0123456789abcdef").1 = false ∧
    isValidationError
      (CryptoService.decryptTraced testPrimitives envelope0Tampered
        "0123456789abcdef0123456789abcdef").1 = true := by
  refine ⟨?_, ?_, ?_, ?_, ?_, ?_, ?_⟩ <;> first | rfl | decide

/-- A string accepted by `isValidBase64` is non-empty. -/
theorem isValidBase64_data_ne_nil {s : String}
    (h : CryptoValidation.isValidBase64 s = true) : s.data ≠ [] := by
  intro hnil
  simp [CryptoValidation.isValidBase64, hnil] at h

/-- C8: key derivation is a deterministic function of `(secret, salt)`.
For every valid-base64 salt, `deriveKeysWithArgon2` succeeds and its result
is exactly the argon2 output at the fixed options (`hashLength 64`, decoded
salt, memory cost 262144, time cost 4, parallelism 3) split at byte 32:
bytes `[0,32)` become the cipher key and bytes `[32,64)` the MAC key — so
any two invocations at the same `(secret, salt)` yield the identical
`DerivedKeySet`, and (given the 64-byte argon2 output the `hashLength`
option guarantees) both keys are 32 bytes. -/
theorem derive_keys_function_of_secret_and_salt (P : CryptoPrimitives)
    (secretKey salt : String)
    (hsalt : CryptoValidation.isValidBase64 salt = true)
    (hlen : (P.argon2Hash secretKey (CryptoArgon2.argon2OptionsFor salt)).length = 64) :
    CryptoArgon2.deriveKeysWithArgon2 P secretKey salt =
      .ok { encryptionKey :=
              (P.argon2Hash secretKey (CryptoArgon2.argon2OptionsFor salt)).take
                SECRET_KEY_LENGTH
            hmacKey :=
              (P.argon2Hash secretKey (CryptoArgon2.argon2OptionsFor salt)).drop
                SECRET_KEY_LENGTH } ∧
    ((P.argon2Hash secretKey (CryptoArgon2.argon2OptionsFor salt)).take
      SECRET_KEY_LENGTH).length = 32 ∧
    ((P.argon2Hash secretKey (CryptoArgon2.argon2OptionsFor salt)).drop
      SECRET_KEY_LENGTH).length = 32 := by
  refine ⟨?_, ?_, ?_⟩
  · unfold CryptoArgon2.deriveKeysWithArgon2 CryptoValidation.validateBase64String
    simp [isValidBase64_data_ne_nil hsalt, hsalt]
  · simp [hlen, SECRET_KEY_LENGTH]
  · simp [hlen, SECRET_KEY_LENGTH]

/-- Witness for C8 at concrete inputs. -/
theorem derive_keys_function_of_secret_and_salt_witness :
    CryptoArgon2.deriveKeysWithArgon2 testPrimitives
        "0123456789abcdef0123456789abcdef" "AAAA" =
      .ok { encryptionKey :=
              (testPrimitives.argon2Hash "0123456789abcdef0123456789abcdef"
                (CryptoArgon2.argon2OptionsFor "AAAA")).take SECRET_KEY_LENGTH
            hmacKey :=
              (testPrimitives.argon2Hash "0123456789abcdef0123456789abcdef"
                (CryptoArgon2.argon2OptionsFor "AAAA")).drop SECRET_KEY_LENGTH } ∧
    ((testPrimitives.argon2Hash "0123456789abcdef0123456789abcdef"
      (CryptoArgon2.argon2OptionsFor "AAAA")).take SECRET_KEY_LENGTH).length = 32 ∧
    ((testPrimitives.argon2Hash "0123456789abcdef0123456789abcdef"
      (CryptoArgon2.argon2OptionsFor "AAAA")).drop SECRET_KEY_LENGTH).length = 32 :=
  derive_keys_function_of_secret_and_salt testPrimitives
    "0123456789abcdef0123456789abcdef" "AAAA" (by decide) (by decide)

/-- C10: `generateAndStoreSecretKey` returns the freshly generated key even
when the store was skipped because the secret-key variable already holds a
(non-blank) value; in that case the file content is unchanged, and whenever
the generated key differs from the existing value the returned key is not
the value stored in the file. -/
theorem generate_and_store_returns_unpersisted_key_on_skip
    (generated fileContent keyName existing : String)
    (hex : SecretFileManager.extractKeyValue fileContent keyName = some existing)
    (htrim : (SecretFileManager.jsTrim existing).data ≠ []) :
    CryptoCoordinator.generateAndStoreSecretKey generated fileContent keyName =
      .ok (generated, fileContent) ∧
    (generated ≠ existing →
      SecretFileManager.extractKeyValue fileContent keyName ≠ some generated) := by
  have hstore : SecretFileManager.storeKeyInFileContent fileContent keyName
      generated true = (false, fileContent) := by
    unfold SecretFileManager.storeKeyInFileContent SecretFileManager.shouldSkipExistingKey
    simp [hex]
  have hensure : SecretFileManager.ensureSecretKeyExists fileContent keyName = .ok () := by
    unfold SecretFileManager.ensureSecretKeyExists SecretFileManager.verifySecretKeyExists
    simp [hex, htrim]
  refine ⟨?_, ?_⟩
  · unfold CryptoCoordinator.generateAndStoreSecretKey
    simp [hstore, hensure]
  · intro hne h
    rw [hex] at h
    exact hne (Option.some.inj h).symm

/-- Witness for C10 at concrete inputs: the key variable already holds
`"oldsecret"`, the store step is skipped, and the fresh key is returned
without being persisted. -/
theorem generate_and_store_returns_unpersisted_key_on_skip_witness :
    CryptoCoordinator.generateAndStoreSecretKey "FreshGeneratedBase64Key="
        "DEV_SECRET_KEY=oldsecret" "DEV_SECRET_KEY" =
      .ok ("FreshGeneratedBase64Key=", "DEV_SECRET_KEY=oldsecret") ∧
    ("FreshGeneratedBase64Key=" ≠ "oldsecret" →
      SecretFileManager.extractKeyValue "DEV_SECRET_KEY=oldsecret" "DEV_SECRET_KEY" ≠
        some "FreshGeneratedBase64Key=") :=
  generate_and_store_returns_unpersisted_key_on_skip "FreshGeneratedBase64Key="
    "DEV_SECRET_KEY=oldsecret" "DEV_SECRET_KEY" "oldsecret" (by decide) (by decide)

/-- The only error `verifyHMACIntegrity` can raise is the one generic
authentication error. -/
theorem verifyHMACIntegrity_error_generic (P : CryptoPrimitives)
    (salt iv cipherText receivedHmac : String) (hmacKey : List Nat)
    (e : CryptoError)
    (h : CryptoHmac.verifyHMACIntegrity P salt iv cipherText receivedHmac hmacKey
      = .error e) :
    e = .authentication "CryptoEngine.verifyHMACIntegrity" CryptoHmac.hmacMismatchMsg := by
  by_cases hv : CryptoHmac.verifyHMAC
      (base64Encode (P.hmacSha256 hmacKey
        (CryptoHmac.prepareHMACData salt iv cipherText))) receivedHmac = true
  · simp [CryptoHmac.verifyHMACIntegrity, hv] at h
  · simp [CryptoHmac.verifyHMACIntegrity, hv] at h
    exact h.symm

/-- C5: whenever the decrypt pipeline reaches the MAC comparison and it
fails, `decrypt` raises the single generic authentication error of
`verifyHMACIntegrity` — which does not distinguish a wrong key from
tampered data — and the AEAD decryption step (`performDecryption`) is never
executed. -/
theorem mac_mismatch_yields_generic_auth_error_and_skips_aead
    (P : CryptoPrimitives) (encryptedData secretKey : String)
    (h : (CryptoService.decryptTraced P encryptedData secretKey).2.macResult
      = some false) :
    (CryptoService.decryptTraced P encryptedData secretKey).1 =
      .error (.authentication "CryptoEngine.verifyHMACIntegrity"
        CryptoHmac.hmacMismatchMsg) ∧
    (CryptoService.decryptTraced P encryptedData secretKey).2.aeadInvoked = false := by
  cases h1 : CryptoValidation.validateSecretKey secretKey with
  | error e1 => simp [CryptoService.decryptTraced, h1] at h
  | ok u1 =>
  cases h2 : CryptoValidation.validateInputs encryptedData secretKey "decrypt" with
  | error e2 => simp [CryptoService.decryptTraced, h1, h2] at h
  | ok u2 =>
  cases h3 : CryptoDecryption.parseEncryptedData encryptedData with
  | error e3 => simp [CryptoService.decryptTraced, h1, h2, h3] at h
  | ok pd =>
  cases h4 : CryptoArgon2.deriveKeysWithArgon2 P secretKey pd.salt with
  | error e4 => simp [CryptoService.decryptTraced, h1, h2, h3, h4] at h
  | ok keys =>
  cases h5 : CryptoHmac.verifyHMACIntegrity P pd.salt pd.iv pd.cipherText
      pd.receivedHmac keys.hmacKey with
  | error e5 =>
    have he := verifyHMACIntegrity_error_generic P pd.salt pd.iv pd.cipherText
      pd.receivedHmac keys.hmacKey e5 h5
    subst he
    simp [CryptoService.decryptTraced, h1, h2, h3, h4, h5]
  | ok u5 =>
    cases h6 : CryptoDecryption.performDecryption P pd.iv keys.encryptionKey
        pd.cipherText with
    | error e6 => simp [CryptoService.decryptTraced, h1, h2, h3, h4, h5, h6] at h
    | ok pt => simp [CryptoService.decryptTraced, h1, h2, h3, h4, h5, h6] at h

/-- Witness for C5: a six-token input passes parsing, its `"AAAA"` MAC
field cannot match the 32-byte recomputed HMAC, and decryption stops with
the generic authentication error without invoking the AEAD cipher. -/
theorem mac_mismatch_yields_generic_auth_error_and_skips_aead_witness :
    (CryptoService.decryptTraced testPrimitives "ENC2:v1:AAAA:AAAA:AAAA:AAAA:AAAA"
      "0123456789abcdef0123456789abcdef").1 =
      .error (.authentication "CryptoEngine.verifyHMACIntegrity"
        CryptoHmac.hmacMismatchMsg) ∧
    (CryptoService.decryptTraced testPrimitives "ENC2:v1:AAAA:AAAA:AAAA:AAAA:AAAA"
      "0123456789abcdef0123456789abcdef").2.aeadInvoked = false :=
  mac_mismatch_yields_generic_auth_error_and_skips_aead testPrimitives
    "ENC2:v1:AAAA:AAAA:AAAA:AAAA:AAAA" "0123456789abcdef0123456789abcdef"
    (by decide)

theorem isPrefixOf_append_self (l t : List Char) : l.isPrefixOf (l ++ t) = true := by
  induction l with
  | nil => simp [List.isPrefixOf]
  | cons c cs ih => simp [List.isPrefixOf, ih]

/-- Splitting a separator-free list yields the single field. -/
theorem jsSplit_sepFree (sep : Char) (a : List Char) (h : ∀ c ∈ a, c ≠ sep) :
    jsSplit sep a = [a] := by
  induction a with
  | nil => rfl
  | cons c cs ih =>
    have hc : c ≠ sep := h c (by simp)
    have ih' := ih (fun x hx => h x (by simp [hx]))
    simp [jsSplit, hc, ih']

/-- Splitting peels off a separator-free field before a separator. -/
theorem jsSplit_append_sep (sep : Char) (a r : List Char) (h : ∀ c ∈ a, c ≠ sep) :
    jsSplit sep (a ++ sep :: r) = a :: jsSplit sep r := by
  induction a with
  | nil => simp [jsSplit]
  | cons c cs ih =>
    have hc : c ≠ sep := h c (by simp)
    have ih' := ih (fun x hx => h x (by simp [hx]))
    simp [jsSplit, hc, ih']

theorem b64AlphabetList_fieldChar : ∀ c ∈ b64AlphabetList, isB64FieldChar c = true := by
  decide

theorem b64CharOf_fieldChar (n : Nat) : isB64FieldChar (b64CharOf n) = true := by
  unfold b64CharOf
  by_cases h : n < b64AlphabetList.length
  · rw [List.getD_eq_getElem _ _ h]
    exact b64AlphabetList_fieldChar _ (List.getElem_mem h)
  · rw [List.getD_eq_default _ _ (Nat.le_of_not_lt h)]
    decide

/-- Every character emitted by the base64 encoder lies in the regex class
`[A-Za-z0-9+/=]`. -/
theorem base64EncodeList_fieldChars :
    ∀ (bs : List Nat), ∀ c ∈ base64EncodeList bs, isB64FieldChar c = true
  | [], c, h => by simp [base64EncodeList] at h
  | [b1], c, h => by
    simp [base64EncodeList] at h
    rcases h with h | h | h
    · subst h; exact b64CharOf_fieldChar _
    · subst h; exact b64CharOf_fieldChar _
    · subst h; decide
  | [b1, b2], c, h => by
    simp [base64EncodeList] at h
    rcases h with h | h | h | h
    · subst h; exact b64CharOf_fieldChar _
    · subst h; exact b64CharOf_fieldChar _
    · subst h; exact b64CharOf_fieldChar _
    · subst h; decide
  | b1 :: b2 :: b3 :: rest, c, h => by
    simp [base64EncodeList] at h
    rcases h with h | h | h | h | h
    · subst h; exact b64CharOf_fieldChar _
    · subst h; exact b64CharOf_fieldChar _
    · subst h; exact b64CharOf_fieldChar _
    · subst h; exact b64CharOf_fieldChar _
    · exact base64EncodeList_fieldChars rest c h

/-- The base64 encoding of a non-empty byte list is non-empty. -/
theorem base64EncodeList_ne_nil :
    ∀ bs : List Nat, bs ≠ [] → base64EncodeList bs ≠ []
  | [], h => absurd rfl h
  | [_], _ => by simp [base64EncodeList]
  | [_, _], _ => by simp [base64EncodeList]
  | _ :: _ :: _ :: _, _ => by simp [base64EncodeList]

theorem fieldChar_ne_colon {c : Char} (h : isB64FieldChar c = true) : c ≠ ':' := by
  intro hc
  subst hc
  exact absurd h (by decide)

/-- The character data of a formatted payload. -/
theorem formatEncryptedPayload_data (salt iv cipherText hmac : String) :
    (CryptoEncryption.formatEncryptedPayload salt iv cipherText hmac).data =
      "ENC2:v1:".data ++
        (salt.data ++ ':' :: (iv.data ++ ':' ::
          (cipherText.data ++ ':' :: hmac.data))) := by
  have h0 : (prefixTag ++ versionTag ++ ":" : String) = "ENC2:v1:" := rfl
  have hcolon : (":" : String).data = [':'] := rfl
  unfold CryptoEncryption.formatEncryptedPayload
  rw [h0]
  simp [String.data_append, hcolon, List.append_assoc]

/-- Splitting four colon-joined separator-free fields. -/
theorem jsSplit_four_fields (s i c m : List Char)
    (hsC : ∀ x ∈ s, isB64FieldChar x = true)
    (hiC : ∀ x ∈ i, isB64FieldChar x = true)
    (hcC : ∀ x ∈ c, isB64FieldChar x = true)
    (hmC : ∀ x ∈ m, isB64FieldChar x = true) :
    jsSplit separatorChar (s ++ ':' :: (i ++ ':' :: (c ++ ':' :: m)))
      = [s, i, c, m] := by
  show jsSplit ':' _ = _
  rw [jsSplit_append_sep ':' s _ (fun x hx => fieldChar_ne_colon (hsC x hx)),
      jsSplit_append_sep ':' i _ (fun x hx => fieldChar_ne_colon (hiC x hx)),
      jsSplit_append_sep ':' c _ (fun x hx => fieldChar_ne_colon (hcC x hx)),
      jsSplit_sepFree ':' m (fun x hx => fieldChar_ne_colon (hmC x hx))]

/-- A payload formatted from four non-empty fields over the base64 regex
class matches the claim C6 regex. -/
theorem matches_format (s i c m : List Char)
    (hs : s ≠ []) (hi : i ≠ []) (hc : c ≠ []) (hm : m ≠ [])
    (hsC : ∀ x ∈ s, isB64FieldChar x = true)
    (hiC : ∀ x ∈ i, isB64FieldChar x = true)
    (hcC : ∀ x ∈ c, isB64FieldChar x = true)
    (hmC : ∀ x ∈ m, isB64FieldChar x = true) :
    matchesEnvelopeRegex (CryptoEncryption.formatEncryptedPayload
      (String.mk s) (String.mk i) (String.mk c) (String.mk m)) = true := by
  have hdata := formatEncryptedPayload_data (String.mk s) (String.mk i)
    (String.mk c) (String.mk m)
  have hlen : ("ENC2:v1:".data).length = 8 := rfl
  have hdrop : ∀ rest : List Char, ("ENC2:v1:".data ++ rest).drop 8 = rest := by
    intro rest
    rw [← hlen]
    exact List.drop_left _ _
  have hsplit : jsSplit separatorChar (s ++ ':' :: (i ++ ':' :: (c ++ ':' :: m)))
      = [s, i, c, m] := jsSplit_four_fields s i c m hsC hiC hcC hmC
  unfold matchesEnvelopeRegex
  rw [hdata, hdrop, hsplit, isPrefixOf_append_self]
  simp [List.all_eq_true, List.isEmpty_iff, hs, hi, hc, hm]
  exact ⟨hsC, hiC, hcC, hmC⟩

/-- Supporting generalisation of C1/C7: `parseEncryptedData` rejects EVERY
formatted payload — any envelope built from four non-empty base64-class
fields, i.e. anything `encrypt` can emit, tampered or not — with a
validation error, because the five post-prefix tokens never equal the
required `EXPECTED_PARTS + 1 = 6`. -/
theorem parse_rejects_formatted_payload (s i c m : List Char)
    (hs : s ≠ []) (hi : i ≠ []) (hc : c ≠ []) (hm : m ≠ [])
    (hsC : ∀ x ∈ s, isB64FieldChar x = true)
    (hiC : ∀ x ∈ i, isB64FieldChar x = true)
    (hcC : ∀ x ∈ c, isB64FieldChar x = true)
    (hmC : ∀ x ∈ m, isB64FieldChar x = true) :
    isValidationError (CryptoDecryption.parseEncryptedData
      (CryptoEncryption.formatEncryptedPayload (String.mk s) (String.mk i)
        (String.mk c) (String.mk m))) = true := by
  have hdata := formatEncryptedPayload_data (String.mk s) (String.mk i)
    (String.mk c) (String.mk m)
  have hsplit4 := jsSplit_four_fields s i c m hsC hiC hcC hmC
  have hv1 : ∀ x ∈ (['v', '1'] : List Char), x ≠ ':' := by decide
  have hdrop5 :
      ((CryptoEncryption.formatEncryptedPayload (String.mk s) (String.mk i)
        (String.mk c) (String.mk m)).data).drop prefixTag.data.length
      = ['v', '1'] ++ ':' :: (s ++ ':' :: (i ++ ':' :: (c ++ ':' :: m))) := by
    rw [hdata]
    have h8 : ("ENC2:v1:".data : List Char) = "ENC2:".data ++ ['v', '1', ':'] := rfl
    rw [h8, List.append_assoc]
    show List.drop ("ENC2:".data).length _ = _
    rw [List.drop_left]
    rfl
  have hparts : jsSplit separatorChar
      (((CryptoEncryption.formatEncryptedPayload (String.mk s) (String.mk i)
        (String.mk c) (String.mk m)).data).drop prefixTag.data.length)
      = ['v', '1'] :: [s, i, c, m] := by
    rw [hdrop5]
    show jsSplit ':' _ = _
    rw [jsSplit_append_sep ':' ['v', '1'] _ hv1]
    show _ :: jsSplit separatorChar _ = _
    rw [hsplit4]
  have hpref : prefixTag.data.isPrefixOf
      (CryptoEncryption.formatEncryptedPayload (String.mk s) (String.mk i)
        (String.mk c) (String.mk m)).data = true := by
    rw [hdata]
    have h8 : ("ENC2:v1:".data : List Char) = "ENC2:".data ++ ['v', '1', ':'] := rfl
    rw [h8, List.append_assoc]
    exact isPrefixOf_append_self _ _
  simp only [CryptoDecryption.parseEncryptedData, hparts]
  simp only [CryptoDecryption.validateEncryptedComponents, hpref]
  simp [hs, hi, hc, hm, isValidationError]
  rfl

/-- C6: every string a successful `encrypt` returns matches
`^ENC2:v1:[A-Za-z0-9+/=]+:[A-Za-z0-9+/=]+:[A-Za-z0-9+/=]+:[A-Za-z0-9+/=]+$`
— the fixed prefix, the version tag and four non-empty base64 fields joined
by `:`.  The hypotheses on `P` are the platform guarantees that AES-GCM
output (ciphertext plus tag) and HMAC-SHA-256 output are never empty, and
the salt/iv byte inputs are the (non-empty) CSPRNG outputs. -/
theorem encrypt_output_matches_envelope_regex (P : CryptoPrimitives)
    (value secretKey : String) (saltBytes ivBytes : List Nat) (out : String)
    (hAes : ∀ key iv v, P.aesGcmEncrypt key iv v ≠ [])
    (hMac : ∀ key data, P.hmacSha256 key data ≠ [])
    (hSalt : saltBytes ≠ []) (hIv : ivBytes ≠ [])
    (hOk : CryptoService.encryptWithKey P value secretKey saltBytes ivBytes
      = .ok out) :
    matchesEnvelopeRegex out = true := by
  simp only [CryptoService.encryptWithKey] at hOk
  cases hv1 : CryptoValidation.validateSecretKey secretKey with
  | error e => simp [hv1] at hOk
  | ok u1 =>
  cases hv2 : CryptoValidation.validateInputs value secretKey "encrypt" with
  | error e => simp [hv1, hv2] at hOk
  | ok u2 =>
  cases hd : CryptoArgon2.deriveKeysWithArgon2 P secretKey (base64Encode saltBytes) with
  | error e => simp [hv1, hv2, hd] at hOk
  | ok keys =>
  simp only [hv1, hv2, hd, CryptoEncryption.createEncryptedPayload,
    Except.ok.injEq] at hOk
  subst hOk
  exact matches_format _ _ _ _
    (base64EncodeList_ne_nil _ hSalt)
    (base64EncodeList_ne_nil _ hIv)
    (base64EncodeList_ne_nil _ (hAes keys.encryptionKey ivBytes value))
    (base64EncodeList_ne_nil _ (hMac keys.hmacKey _))
    (base64EncodeList_fieldChars _)
    (base64EncodeList_fieldChars _)
    (base64EncodeList_fieldChars _)
    (base64EncodeList_fieldChars _)

/-- Witness for C6: at the concrete primitives and inputs of `envelope0`,
the hypotheses hold and the produced envelope matches the regex. -/
theorem encrypt_output_matches_envelope_regex_witness :
    matchesEnvelopeRegex envelope0 = true :=
  encrypt_output_matches_envelope_regex testPrimitives "hunter2"
    "0123456789abcdef0123456789abcdef" (List.range 32) (List.range 12) envelope0
    (fun key iv v => by simp [testPrimitives])
    (fun key data => by simp [testPrimitives])
    (by decide) (by decide) (by rfl)

/-- Declarative reading of the regex `^[A-Za-z0-9+/]*={0,2}$`: the string
decomposes into a body over the alphabet class followed by at most two
padding characters `=`. -/
def B64Shape (s : String) : Prop :=
  ∃ body pad : List Char, s.data = body ++ pad ∧
    (∀ c ∈ body, isB64AlphaChar c = true) ∧ pad.length ≤ 2 ∧ ∀ c ∈ pad, c = '='

theorem takeWhile_append_of_all (p : Char → Bool) (l₁ l₂ : List Char)
    (h : ∀ c ∈ l₁, p c = true) :
    (l₁ ++ l₂).takeWhile p = l₁ ++ l₂.takeWhile p := by
  induction l₁ with
  | nil => simp
  | cons c cs ih =>
    have hc := h c (by simp)
    simp [List.takeWhile, hc, ih (fun x hx => h x (by simp [hx]))]

theorem dropWhile_append_of_all (p : Char → Bool) (l₁ l₂ : List Char)
    (h : ∀ c ∈ l₁, p c = true) :
    (l₁ ++ l₂).dropWhile p = l₂.dropWhile p := by
  induction l₁ with
  | nil => simp
  | cons c cs ih =>
    have hc := h c (by simp)
    simp [List.dropWhile, hc, ih (fun x hx => h x (by simp [hx]))]

/-- The executable regex test agrees with the declarative decomposition. -/
theorem b64RegexTest_iff (s : String) :
    CryptoValidation.b64RegexTest s.data = true ↔ B64Shape s := by
  constructor
  · intro h
    simp only [CryptoValidation.b64RegexTest, Bool.and_eq_true,
      decide_eq_true_eq, List.all_eq_true] at h
    obtain ⟨⟨hbody, hlen⟩, hpad⟩ := h
    refine ⟨s.data.takeWhile (fun c => !(c = '=')),
      s.data.dropWhile (fun c => !(c = '=')),
      (List.takeWhile_append_dropWhile _ _).symm, hbody, hlen, ?_⟩
    intro c hc
    exact hpad c hc
  · rintro ⟨body, pad, hdec, hbody, hlen, hpad⟩
    have hpb : ∀ c ∈ body, (fun c => !(c = '=')) c = true := by
      intro c hc
      have ha := hbody c hc
      have : c ≠ '=' := by
        intro he
        subst he
        exact absurd ha (by decide)
      simp [this]
    have hpadTake : pad.takeWhile (fun c => !(c = '=')) = [] := by
      cases pad with
      | nil => rfl
      | cons c cs =>
        have : c = '=' := hpad c (by simp)
        subst this
        simp [List.takeWhile]
    have hpadDrop : pad.dropWhile (fun c => !(c = '=')) = pad := by
      cases pad with
      | nil => rfl
      | cons c cs =>
        have : c = '=' := hpad c (by simp)
        subst this
        simp [List.dropWhile]
    simp only [CryptoValidation.b64RegexTest, Bool.and_eq_true,
      decide_eq_true_eq, List.all_eq_true]
    rw [hdec, takeWhile_append_of_all _ _ _ hpb, dropWhile_append_of_all _ _ _ hpb,
      hpadTake, hpadDrop]
    refine ⟨⟨?_, hlen⟩, ?_⟩
    · intro c hc
      rcases List.mem_append.mp hc with hc | hc
      · exact hbody c hc
      · simp [hpadTake] at hc
    · intro c hc
      exact hpad c hc

/-- C9 amended: `isValidBase64(s)` returns true iff `s` is NON-EMPTY,
matches `^[A-Za-z0-9+/]*={0,2}$` and has length a multiple of 4.  (The
decode step never fails — Node's lenient `Buffer.from(s, "base64")` is
total — but the `!value` guard additionally rejects the empty string, which
the decomposition alone would accept.) -/
theorem isValidBase64_characterization (s : String) :
    CryptoValidation.isValidBase64 s = true ↔
      s.data ≠ [] ∧ B64Shape s ∧ s.data.length % 4 = 0 := by
  by_cases hnil : s.data = []
  · simp [CryptoValidation.isValidBase64, hnil]
  · by_cases hreg : CryptoValidation.b64RegexTest s.data = true
    · by_cases hmod : s.data.length % 4 = 0
      · simp [CryptoValidation.isValidBase64, hnil, hreg, hmod,
          (b64RegexTest_iff s).mp hreg]
      · simp [CryptoValidation.isValidBase64, hnil, hreg, hmod]
        intro hm
        exact absurd hm hmod
    · have hnotshape : ¬ B64Shape s := fun hsh => hreg ((b64RegexTest_iff s).mpr hsh)
      simp [CryptoValidation.isValidBase64, hnil,
        Bool.not_eq_true _ ▸ hreg, hnotshape]

/-- C9 counterexample: on the empty string the claimed characterization
(`isValidBase64(s)` true iff `s` matches `^[A-Za-z0-9+/]*={0,2}$`, has
length a multiple of 4, and decodes) gives `true` — the regex matches, the
length is `0 % 4 = 0`, and Node's `Buffer.from("", "base64")` succeeds with
an empty buffer — but `isValidBase64("")` returns `false` (the `!value`
guard).  So the claimed equivalence is false at `s = ""`. -/
theorem isValidBase64_claim_fails_on_empty_string :
    CryptoValidation.b64RegexTest "".data = true ∧
    "".data.length % 4 = 0 ∧
    nodeBase64Decode "" = [] ∧
    CryptoValidation.isValidBase64 "" = false ∧
    CryptoValidation.isValidBase64 "" ≠
      (CryptoValidation.b64RegexTest "".data && decide ("".data.length % 4 = 0)) := by
  refine ⟨?_, ?_, ?_, ?_, ?_⟩ <;> decide

end PWCrypto
